import Mathlib

/-!
Verification of the js_workshop feature-catalog specification.

The repository is a collection of annotated JavaScript example files.  The
specification describes one structured artifact — the Feature Catalog with
its snippet verifier — and the example files supply the snippet contents.
The catalog and verifier themselves are not present under src/, so they are
modelled here from the specification text; the JavaScript snippets that the
claims mention are embedded from the source files.
-/

namespace JsWorkshop

/-- Modelled from the spec: the runtime error kinds observed during snippet
evaluation, plus the load-time and timeout kinds (§7 error taxonomy). -/
inductive ErrorKind where
  | ReferenceFailure
  | TypeFailure
  | RangeFailure
  | SyntaxFailure
  | Timeout
deriving DecidableEq, Repr

/-- Values appearing in the embedded JavaScript snippets: strings, integer
numbers, undefined, insertion-ordered objects and arrays. -/
inductive JsVal where
  | str : String → JsVal
  | num : Int → JsVal
  | jsUndefined : JsVal
  | obj : List (String × JsVal) → JsVal
  | arr : List JsVal → JsVal

/-- Parts of an object literal: a literal field, or a spread of a variable
(as in `mergedObj = ...obj4 with ...obj5` in src/SpreadRest.js). -/
inductive ObjPart where
  | field : String → JsVal → ObjPart
  | spreadVar : String → ObjPart

/-- Expressions of the embedded snippet language: literals, variable
references, indexing a variable holding an array, and object literals
with spread parts. -/
inductive Expr where
  | lit : JsVal → Expr
  | varRef : String → Expr
  | indexVar : String → Nat → Expr
  | objLit : List ObjPart → Expr

/-- Statements of the embedded snippet language: `const` declaration,
`console.log`, a block, and `setTimeout` of a callback body with a delay
in milliseconds. -/
inductive Stmt where
  | constDecl : String → Expr → Stmt
  | log : Expr → Stmt
  | block : List Stmt → Stmt
  | timeoutCall : Nat → List Stmt → Stmt

/-- Modelled from the spec: a Snippet (§3).  `source` is the literal code
text; since a string cannot be executed in the embedding, the executable
content of `source` is carried alongside as the structured `program`.
`expectedOutput` is the ordered sequence of expected printed lines,
`failsWith` the optionally declared expected failure kind, and `mayThrow`
whether an uncaught failure is the documented behavior. -/
structure Snippet where
  source : String
  program : List Stmt
  expectedOutput : List String
  failsWith : Option ErrorKind
  mayThrow : Bool

/-- Modelled from the spec: a FeatureEntry (§3) with its unique id, its
category name, a description and an ordered sequence of snippets. -/
structure FeatureEntry where
  id : String
  category : String
  description : String
  snippets : List Snippet

/-- Modelled from the spec: the fixed set of categories (§3). -/
def validCategories : List String :=
  ["variable-declaration", "destructuring", "spread-rest", "template-literal",
   "arrow-function", "async-control-flow", "object-utility", "error-handling"]

/-- Modelled from the spec: the catalog, an ordered registry of entries in
registration order (§4.1). -/
structure Catalog where
  entries : List FeatureEntry

/-- Modelled from the spec: catalog-construction faults (§7). -/
inductive CatalogError where
  | DuplicateIdError
  | InvalidCategoryError
  | EmptySnippetError
deriving DecidableEq, Repr

/-- Modelled from the spec: the lookup fault of `get` (§7). -/
inductive LookupError where
  | NotFoundError
deriving DecidableEq, Repr

/-- The empty catalog, the state before any registration. -/
def emptyCatalog : Catalog := ⟨[]⟩

/-- Whether some entry of the list already has the given id. -/
def containsId (es : List FeatureEntry) (i : String) : Bool :=
  es.any (fun e => e.id == i)

/-- Modelled from the spec: `register` (§4.1) inserts the entry at the end,
failing with `DuplicateIdError` if the id is already present, with
`InvalidCategoryError` if the category is not in the fixed set, and with
`EmptySnippetError` if the snippet sequence is empty. -/
def Catalog.register (c : Catalog) (e : FeatureEntry) : Except CatalogError Catalog :=
  if containsId c.entries e.id then .error .DuplicateIdError
  else if ¬ (validCategories.contains e.category) then .error .InvalidCategoryError
  else if e.snippets.isEmpty then .error .EmptySnippetError
  else .ok ⟨c.entries ++ [e]⟩

/-- State-passing form of `register`: on failure the caller's catalog state
is returned unchanged (the atomicity reading of §8). -/
def Catalog.registerSt (c : Catalog) (e : FeatureEntry) :
    Except CatalogError Unit × Catalog :=
  match c.register e with
  | .error err => (.error err, c)
  | .ok c2 => (.ok (), c2)

/-- Modelled from the spec: `get` (§4.1) returns the entry with the given
id, failing with `NotFoundError` when no entry has that id. -/
def Catalog.get (c : Catalog) (i : String) : Except LookupError FeatureEntry :=
  match c.entries.find? (fun e => e.id == i) with
  | some e => .ok e
  | none => .error .NotFoundError

/-- Modelled from the spec: `all` (§4.1) returns the full catalog in
registration order. -/
def Catalog.all (c : Catalog) : List FeatureEntry := c.entries

/-- Modelled from the spec: `listByCategory` (§4.1) returns the entries of
the given category in registration order, written by direct recursion over
the stored entries. -/
def listByCategoryAux (cat : String) : List FeatureEntry → List FeatureEntry
  | [] => []
  | e :: rest =>
      if e.category == cat then e :: listByCategoryAux cat rest
      else listByCategoryAux cat rest

/-- Modelled from the spec: `listByCategory` on a catalog. -/
def Catalog.listByCategory (c : Catalog) (cat : String) : List FeatureEntry :=
  listByCategoryAux cat c.entries

/-- Modelled from the spec: a snippet is well formed when it has a
non-empty `expectedOutput` or `mayThrow` is true (§3 invariant). -/
def wellFormedSnippet (s : Snippet) : Bool :=
  !s.expectedOutput.isEmpty || s.mayThrow

/-- Modelled from the spec: catalog load (§3 lifecycle, §7 propagation).
Loading first rejects any malformed snippet with `EmptySnippetError`, then
folds `register` over the definition set; any fault aborts the whole load,
so no partial catalog is ever produced. -/
def loadCatalog (defs : List FeatureEntry) : Except CatalogError Catalog :=
  if defs.any (fun e => e.snippets.any (fun s => !wellFormedSnippet s)) then
    .error .EmptySnippetError
  else
    defs.foldlM (fun c e => c.register e) emptyCatalog

mutual

/-- Formatting of a value in value position of Node's console output:
strings are quoted, numbers printed plainly, objects printed with braces
and comma-separated `key: value` fields in insertion order. -/
def fmtInner : JsVal → String
  | .str s => "\x27" ++ s ++ "\x27"
  | .num n => toString n
  | .jsUndefined => "undefined"
  | .obj fs => if fs.isEmpty then "\x7b\x7d" else "\x7b " ++ fmtFields fs ++ " \x7d"
  | .arr vs => if vs.isEmpty then "[]" else "[ " ++ fmtElems vs ++ " ]"

/-- Comma-separated `key: value` rendering of object fields. -/
def fmtFields : List (String × JsVal) → String
  | [] => ""
  | [(k, v)] => k ++ ": " ++ fmtInner v
  | (k, v) :: rest => k ++ ": " ++ fmtInner v ++ ", " ++ fmtFields rest

/-- Comma-separated rendering of array elements. -/
def fmtElems : List JsVal → String
  | [] => ""
  | [v] => fmtInner v
  | v :: rest => fmtInner v ++ ", " ++ fmtElems rest

end

/-- Formatting of a value logged at top level: a top-level string is
printed raw (no quotes), anything else as in value position. -/
def fmtLog : JsVal → String
  | .str s => s
  | v => fmtInner v

/-- One lexical scope: an association of declared names to values. -/
abbrev Scope := List (String × JsVal)

/-- Variable lookup through the scope stack, innermost first; a missing
name is the undeclared-access case. -/
def lookupScopes : List Scope → String → Option JsVal
  | [], _ => none
  | sc :: rest, x =>
      match sc.find? (fun p => p.1 == x) with
      | some p => some p.2
      | none => lookupScopes rest x

/-- Insertion of a field into an insertion-ordered field list with the
override rule of object spread: an existing key keeps its position and
takes the new value, a new key is appended. -/
def insertField (fs : List (String × JsVal)) (k : String) (v : JsVal) :
    List (String × JsVal) :=
  if fs.any (fun p => p.1 == k) then
    fs.map (fun p => if p.1 == k then (k, v) else p)
  else fs ++ [(k, v)]

/-- Evaluation of the parts of an object literal, left to right,
accumulating fields with the spread override rule. -/
def evalParts (env : List Scope) :
    List ObjPart → List (String × JsVal) → Except ErrorKind (List (String × JsVal))
  | [], acc => .ok acc
  | .field k v :: rest, acc => evalParts env rest (insertField acc k v)
  | .spreadVar x :: rest, acc =>
      match lookupScopes env x with
      | some (.obj fs) =>
          evalParts env rest (fs.foldl (fun a p => insertField a p.1 p.2) acc)
      | some _ => evalParts env rest acc
      | none => .error .ReferenceFailure

/-- Expression evaluation: accessing an undeclared name raises a
`ReferenceFailure`; indexing past the end of an array yields `undefined`
as in JavaScript. -/
def evalExpr (env : List Scope) : Expr → Except ErrorKind JsVal
  | .lit v => .ok v
  | .varRef x =>
      match lookupScopes env x with
      | some v => .ok v
      | none => .error .ReferenceFailure
  | .indexVar x i =>
      match lookupScopes env x with
      | some (.arr vs) => .ok (vs.getD i .jsUndefined)
      | some _ => .ok .jsUndefined
      | none => .error .ReferenceFailure
  | .objLit parts => (evalParts env parts []).map JsVal.obj

/-- A scheduled callback: its delay, a sequence number for first-in
first-out ordering among equal delays, the captured environment and the
callback body. -/
structure Timer where
  delay : Nat
  seq : Nat
  env : List Scope
  body : List Stmt

/-- The evaluation-context state shared across an evaluation: captured
output lines in order, pending timers, and the next timer sequence
number. -/
structure EvalGlobal where
  output : List String
  timers : List Timer
  nextSeq : Nat

/-- Declaration of a `const` binding in the innermost scope; redeclaring a
name already bound in the same scope is the redeclaration fault the
source files document as a SyntaxError. -/
def declareConst (env : List Scope) (x : String) (v : JsVal) :
    Except ErrorKind (List Scope) :=
  match env with
  | [] => .ok [[(x, v)]]
  | sc :: rest =>
      if sc.any (fun p => p.1 == x) then .error .SyntaxFailure
      else .ok (((x, v) :: sc) :: rest)

mutual

/-- Statement evaluation: `const` declares in the innermost scope, `log`
appends a formatted line to the captured output, a block runs its body in
a freshly pushed scope, and `setTimeout` only schedules its callback with
the current environment. -/
def evalStmt : Stmt → List Scope → EvalGlobal → Except ErrorKind (List Scope × EvalGlobal)
  | .constDecl x e, env, g => do
      let v ← evalExpr env e
      let env2 ← declareConst env x v
      .ok (env2, g)
  | .log e, env, g => do
      let v ← evalExpr env e
      .ok (env, { g with output := g.output ++ [fmtLog v] })
  | .block body, env, g => do
      let (_, g2) ← evalStmts body ([] :: env) g
      .ok (env, g2)
  | .timeoutCall d body, env, g =>
      .ok (env, { g with timers := g.timers ++ [⟨d, g.nextSeq, env, body⟩],
                         nextSeq := g.nextSeq + 1 })

/-- Sequential evaluation of a statement list, threading the scope stack
and the shared state. -/
def evalStmts : List Stmt → List Scope → EvalGlobal → Except ErrorKind (List Scope × EvalGlobal)
  | [], env, g => .ok (env, g)
  | s :: rest, env, g => do
      let (env2, g2) ← evalStmt s env g
      evalStmts rest env2 g2

end

/-- Selection of the next timer to fire: smallest delay first, and among
equal delays the earliest scheduled. -/
def pickMinTimer : List Timer → Option (Timer × List Timer)
  | [] => none
  | t :: rest =>
      match pickMinTimer rest with
      | none => some (t, [])
      | some (m, others) =>
          if (m.delay < t.delay) || (m.delay == t.delay && m.seq < t.seq) then
            some (m, t :: others)
          else some (t, rest)

/-- The event loop: fires pending timers in delay order until none remain,
within a bounded budget; exhausting the budget with work still pending is
the bounded-timeout case of the spec, reported as `Timeout`. -/
def runLoop : Nat → EvalGlobal → Except ErrorKind EvalGlobal
  | 0, g => if g.timers.isEmpty then .ok g else .error .Timeout
  | Nat.succ fuel, g =>
      match pickMinTimer g.timers with
      | none => .ok g
      | some (t, rest) => do
          let (_, g2) ← evalStmts t.body t.env { g with timers := rest }
          runLoop fuel g2

/-- Modelled from the spec: the bounded budget the verifier waits for
scheduled asynchronous work to settle (§5 cancellation). -/
def evalBudget : Nat := 1000

/-- Modelled from the spec: evaluation of a snippet program in a fresh,
isolated scope (§4.2): run the synchronous statements from an empty scope
stack and empty shared state, then wait for all scheduled asynchronous
work to settle, and return the captured output lines, or the kind of the
first uncaught failure. -/
def runProgram (p : List Stmt) : Except ErrorKind (List String) := do
  let (_, g) ← evalStmts p [[]] ⟨[], [], 0⟩
  let g2 ← runLoop evalBudget g
  .ok g2.output

/-- Modelled from the spec: the verification outcomes (§4.2). -/
inductive VerificationResult where
  | Match
  | ExpectedFailure
  | Mismatch
deriving DecidableEq, Repr

/-- Modelled from the spec: `verify` (§4.2).  Evaluation faults are caught
here and converted into a `VerificationResult`: `ExpectedFailure` when a
failure occurred, `mayThrow` is true and any declared kind matches;
`Match` when no failure occurred, none was required and the captured
output equals `expectedOutput` line for line; `Mismatch` otherwise. -/
def verify (s : Snippet) : VerificationResult :=
  match runProgram s.program with
  | .error k =>
      if s.mayThrow then
        match s.failsWith with
        | none => .ExpectedFailure
        | some k2 => if k = k2 then .ExpectedFailure else .Mismatch
      else .Mismatch
  | .ok lines =>
      if s.mayThrow then .Mismatch
      else if lines = s.expectedOutput then .Match else .Mismatch

/-- Verification of one entry's snippets in order, pairing each result
with the entry id and the snippet index starting at `i`. -/
def verifyEntry (i : String) : Nat → List Snippet → List (String × Nat × VerificationResult)
  | _, [] => []
  | n, s :: rest => (i, n, verify s) :: verifyEntry i (n + 1) rest

/-- Verification of a list of entries in order. -/
def verifyAllEntries : List FeatureEntry → List (String × Nat × VerificationResult)
  | [] => []
  | e :: rest => verifyEntry e.id 0 e.snippets ++ verifyAllEntries rest

/-- Modelled from the spec: `verifyAll` (§4.2) runs `verify` over every
snippet of every entry in catalog order. -/
def verifyAll (c : Catalog) : List (String × Nat × VerificationResult) :=
  verifyAllEntries c.entries

/-- Sequential verification of a list of snippets, one result each, in
order. -/
def verifySeq : List Snippet → List VerificationResult
  | [] => []
  | s :: rest => verify s :: verifySeq rest

/-- The const-block-scope snippet from src/const-let/const-let.js lines
13-18: a block declaring `const x = 10`, followed by an access to `x`
outside the block; documented as failing with a ReferenceError. -/
def constBlockScopeSnippet : Snippet :=
  { source := "\x7b const x = 10; \x7d console.log(x);"
    program := [.block [.constDecl "x" (.lit (.num 10))], .log (.varRef "x")]
    expectedOutput := []
    failsWith := some .ReferenceFailure
    mayThrow := true }

/-- The async-timeout-order snippet from src/async.js lines 2-6: log
start, schedule a deferred log of timeout with delay 3000, then log
end. -/
def asyncTimeoutSnippet : Snippet :=
  { source := "console.log(\"start\"); setTimeout(() => console.log(\"timeout\"), 3000); console.log(\"end\");"
    program := [.log (.lit (.str "start")),
                .timeoutCall 3000 [.log (.lit (.str "timeout"))],
                .log (.lit (.str "end"))]
    expectedOutput := ["start", "end", "timeout"]
    failsWith := none
    mayThrow := false }

/-- The spread-merge-objects snippet from src/SpreadRest.js lines 62-66:
merge two object literals by spread into a new object and log it; the
later spread overrides the shared key `b`. -/
def spreadMergeSnippet : Snippet :=
  { source := "const obj4 = \x7b a: 1, b: 2 \x7d; const obj5 = \x7b b: 3, c: 4 \x7d; const mergedObj = \x7b ...obj4, ...obj5 \x7d; console.log(mergedObj);"
    program := [.constDecl "obj4" (.objLit [.field "a" (.num 1), .field "b" (.num 2)]),
                .constDecl "obj5" (.objLit [.field "b" (.num 3), .field "c" (.num 4)]),
                .constDecl "mergedObj" (.objLit [.spreadVar "obj4", .spreadVar "obj5"]),
                .log (.varRef "mergedObj")]
    expectedOutput := ["\x7b a: 1, b: 3, c: 4 \x7d"]
    failsWith := none
    mayThrow := false }

/-- The first hobbies snippet from src/destructuring.js lines 2-8: declare
`const hobbies`, project the three elements into const bindings and log
them. -/
def hobbiesSnippetA : Snippet :=
  { source := "const hobbies = [\"Reading\", \"Coding\", \"Hiking\"]; const firstHobby = hobbies[0]; const secondHobby = hobbies[1]; const thirdHobby = hobbies[2]; console.log(firstHobby); console.log(secondHobby); console.log(thirdHobby);"
    program := [.constDecl "hobbies" (.lit (.arr [.str "Reading", .str "Coding", .str "Hiking"])),
                .constDecl "firstHobby" (.indexVar "hobbies" 0),
                .constDecl "secondHobby" (.indexVar "hobbies" 1),
                .constDecl "thirdHobby" (.indexVar "hobbies" 2),
                .log (.varRef "firstHobby"),
                .log (.varRef "secondHobby"),
                .log (.varRef "thirdHobby")]
    expectedOutput := ["Reading", "Coding", "Hiking"]
    failsWith := none
    mayThrow := false }

/-- The second hobbies snippet from src/destructuring.js lines 10-14: the
destructuring form `const [firstHobby, secondHobby, thirdHobby] = hobbies`,
embedded as the equivalent element projections, declaring the same names
as the first snippet. -/
def hobbiesSnippetB : Snippet :=
  { source := "const hobbies = [\"Reading\", \"Coding\", \"Hiking\"]; const [firstHobby, secondHobby, thirdHobby] = hobbies; console.log(firstHobby); console.log(secondHobby); console.log(thirdHobby);"
    program := [.constDecl "hobbies" (.lit (.arr [.str "Reading", .str "Coding", .str "Hiking"])),
                .constDecl "firstHobby" (.indexVar "hobbies" 0),
                .constDecl "secondHobby" (.indexVar "hobbies" 1),
                .constDecl "thirdHobby" (.indexVar "hobbies" 2),
                .log (.varRef "firstHobby"),
                .log (.varRef "secondHobby"),
                .log (.varRef "thirdHobby")]
    expectedOutput := ["Reading", "Coding", "Hiking"]
    failsWith := none
    mayThrow := false }

/-- A sample valid entry for the spread-merge scenario, used as a concrete
registration input. -/
def spreadMergeEntry : FeatureEntry :=
  { id := "spread-merge-objects"
    category := "spread-rest"
    description := "Later spread properties override earlier ones."
    snippets := [spreadMergeSnippet] }

/-- A second sample valid entry, for the const-block-scope scenario. -/
def constBlockScopeEntry : FeatureEntry :=
  { id := "const-block-scope"
    category := "variable-declaration"
    description := "A const binding is not visible outside its block."
    snippets := [constBlockScopeSnippet] }

/-- A malformed entry: its snippet has an empty `expectedOutput` and
`mayThrow` false, violating the well-formedness invariant. -/
def malformedEntry : FeatureEntry :=
  { id := "malformed-example"
    category := "variable-declaration"
    description := "A snippet with neither expected output nor mayThrow."
    snippets := [{ source := "", program := [], expectedOutput := [],
                   failsWith := none, mayThrow := false }] }

/-- The kind of a function-valued property, from src/unnamed/part_003
lines 56-77: an arrow function, a regular function expression, or an ES6
shorthand method. -/
inductive FnKind where
  | arrow
  | regular
  | methodShorthand
deriving DecidableEq, Repr

/-- Property access on an object's field list; a missing property reads as
`undefined`, as in JavaScript. -/
def getProp (fs : List (String × JsVal)) (k : String) : JsVal :=
  match fs.find? (fun p => p.1 == k) with
  | some p => p.2
  | none => .jsUndefined

/-- The value of `this` at the top level of a CommonJS module (the
enclosing lexical scope of the object literal in part_003): an empty
exports object, whose `name` property is undefined. -/
def moduleThis : List (String × JsVal) := []

/-- The `this`-binding rule: an arrow function takes `this` lexically from
the enclosing scope and never from the call receiver; a regular function
or shorthand method called as `recv.f()` takes the receiver. -/
def resolveThis (k : FnKind) (lexical recv : List (String × JsVal)) :
    List (String × JsVal) :=
  match k with
  | .arrow => lexical
  | .regular => recv
  | .methodShorthand => recv

/-- Template-literal interpolation of a value, as in `Hello, ${this.name}`:
strings interpolate raw and undefined interpolates as the text
undefined. -/
def fmtInterp : JsVal → String
  | .str s => s
  | v => fmtInner v

/-- The body shared by greetArrow, greetRegular and greetMethod in
part_003: log the template literal `Hello, ${this.name}` for the bound
`this`. -/
def greetBody (thisFields : List (String × JsVal)) : String :=
  "Hello, " ++ fmtInterp (getProp thisFields "name")

/-- The fields of the `person` object literal of part_003 lines 56-77
relevant to `this.name`: name is the string John. -/
def personFields : List (String × JsVal) := [("name", .str "John")]

/-- Calling `person.greetArrow()`, `person.greetRegular()` or
`person.greetMethod()`: bind `this` by the function kind with the module
scope as the lexical context and `person` as the receiver, then run the
shared body. -/
def callGreet (k : FnKind) : String :=
  greetBody (resolveThis k moduleThis personFields)

theorem find_none_of_not_containsId (es : List FeatureEntry) (i : String)
    (h : containsId es i = false) : es.find? (fun e => e.id == i) = none := by
  induction es with
  | nil => rfl
  | cons e rest ih =>
      simp only [containsId, List.any_cons, Bool.or_eq_false_iff] at h
      simp only [List.find?, h.1]
      exact ih (by simp [containsId, h.2])

theorem verifyEntry_eq_enumFrom (i : String) (n : Nat) (ss : List Snippet) :
    verifyEntry i n ss = (ss.enumFrom n).map (fun p => (i, p.1, verify p.2)) := by
  induction ss generalizing n with
  | nil => rfl
  | cons s rest ih => simp [verifyEntry, List.enumFrom, ih]

theorem listByCategoryAux_eq_filter (cat : String) (es : List FeatureEntry) :
    listByCategoryAux cat es = es.filter (fun e => e.category == cat) := by
  induction es with
  | nil => rfl
  | cons e rest ih =>
      by_cases hc : e.category == cat
      · simp [listByCategoryAux, hc, List.filter_cons, ih]
      · simp [listByCategoryAux, hc, List.filter_cons, ih]

theorem verifySeq_snoc (pre : List Snippet) (s : Snippet) :
    verifySeq (pre ++ [s]) = verifySeq pre ++ [verify s] := by
  induction pre with
  | nil => rfl
  | cons t rest ih => simp [verifySeq, ih]

/-- C1: every evaluation fault is caught inside `verify`, which always
returns one of the three `VerificationResult` outcomes and never
propagates a failure; and `verifyAll` produces one result for every
snippet of every entry in catalog order, so a failure in one snippet does
not abort verification of the remaining snippets. -/
theorem verify_catches_faults_and_verifyAll_isolated (c : Catalog) :
    (∀ s : Snippet,
        verify s = .Match ∨ verify s = .ExpectedFailure ∨ verify s = .Mismatch) ∧
    verifyAll c =
      c.entries.flatMap
        (fun e => e.snippets.enum.map (fun p => (e.id, p.1, verify p.2))) := by
  constructor
  · intro s
    cases verify s
    · exact Or.inl rfl
    · exact Or.inr (Or.inl rfl)
    · exact Or.inr (Or.inr rfl)
  · show verifyAllEntries c.entries = _
    induction c.entries with
    | nil => rfl
    | cons e rest ih =>
        simp [verifyAllEntries, ih, List.enum, verifyEntry_eq_enumFrom]

/-- C2: registering an entry whose id is already present fails with
`DuplicateIdError` and leaves the catalog state exactly as it was before
the call. -/
theorem register_duplicate_atomic (c : Catalog) (e : FeatureEntry)
    (h : containsId c.entries e.id = true) :
    c.registerSt e = (.error .DuplicateIdError, c) := by
  simp [Catalog.registerSt, Catalog.register, h]

/-- Witness for C2: registering the spread-merge entry into a catalog that
already holds it fails with `DuplicateIdError` and returns the unchanged
catalog. -/
theorem register_duplicate_atomic_witness :
    containsId (Catalog.mk [spreadMergeEntry]).entries spreadMergeEntry.id = true ∧
    (Catalog.mk [spreadMergeEntry]).registerSt spreadMergeEntry =
      (.error .DuplicateIdError, Catalog.mk [spreadMergeEntry]) :=
  ⟨rfl, register_duplicate_atomic (Catalog.mk [spreadMergeEntry]) spreadMergeEntry rfl⟩

/-- C3: after a successful `register e`, `get e.id` returns exactly `e`;
and looking up any id not present in a catalog fails with
`NotFoundError`. -/
theorem register_get_roundtrip (c c2 : Catalog) (e : FeatureEntry)
    (h : c.register e = .ok c2) :
    c2.get e.id = .ok e ∧
    ∀ i, containsId c.entries i = false → c.get i = .error .NotFoundError := by
  constructor
  · simp only [Catalog.register] at h
    split at h
    · exact absurd h (by simp)
    · split at h
      · exact absurd h (by simp)
      · split at h
        · exact absurd h (by simp)
        · rename_i hdup _ _
          rw [Bool.not_eq_true] at hdup
          cases h
          simp [Catalog.get, List.find?_append,
                find_none_of_not_containsId c.entries e.id hdup, List.find?]
  · intro i hi
    simp [Catalog.get, find_none_of_not_containsId c.entries i hi]

/-- Witness for C3: registering the spread-merge entry into the empty
catalog succeeds, the subsequent `get` returns it, and `get` on the empty
catalog fails with `NotFoundError`. -/
theorem register_get_roundtrip_witness :
    emptyCatalog.register spreadMergeEntry = .ok (Catalog.mk [spreadMergeEntry]) ∧
    (Catalog.mk [spreadMergeEntry]).get spreadMergeEntry.id = .ok spreadMergeEntry ∧
    emptyCatalog.get "missing-id" = .error .NotFoundError := by
  have h := register_get_roundtrip emptyCatalog (Catalog.mk [spreadMergeEntry])
    spreadMergeEntry rfl
  exact ⟨rfl, h.1, h.2 "missing-id" rfl⟩

/-- C4: `listByCategory c` is exactly the subsequence of `all` whose
entries have that category, in original relative order, and it is the
empty sequence when no entry matches. -/
theorem listByCategory_filter_stability (c : Catalog) (cat : String) :
    c.listByCategory cat = c.all.filter (fun e => e.category == cat) ∧
    ((∀ e ∈ c.all, e.category ≠ cat) → c.listByCategory cat = []) := by
  have hfilter : c.listByCategory cat = c.all.filter (fun e => e.category == cat) :=
    listByCategoryAux_eq_filter cat c.entries
  refine ⟨hfilter, fun hnone => ?_⟩
  rw [hfilter, List.filter_eq_nil_iff]
  intro e he
  simpa using hnone e he

/-- Witness for C4: in a catalog holding only the spread-merge entry, the
destructuring category lists as the empty sequence, and the filter
equation holds concretely. -/
theorem listByCategory_filter_stability_witness :
    (Catalog.mk [spreadMergeEntry]).listByCategory "destructuring" = [] :=
  (listByCategory_filter_stability (Catalog.mk [spreadMergeEntry]) "destructuring").2
    (by decide)

/-- C5: the const-block-scope snippet evaluates to a `ReferenceFailure`
(the block-scoped `x` is not visible outside its block), the snippet
declares `mayThrow` with `fails-with ReferenceFailure`, and `verify`
returns `ExpectedFailure` because the observed kind matches the declared
one. -/
theorem const_block_scope_expected_failure :
    runProgram constBlockScopeSnippet.program = .error .ReferenceFailure ∧
    constBlockScopeSnippet.mayThrow = true ∧
    constBlockScopeSnippet.failsWith = some .ReferenceFailure ∧
    verify constBlockScopeSnippet = .ExpectedFailure :=
  ⟨rfl, rfl, rfl, rfl⟩

/-- C6: the async-timeout-order snippet captures exactly the lines start,
end, timeout in completion order — the deferred callback is awaited and
fires after the synchronous lines — so `verify` returns `Match` rather
than a premature-comparison `Mismatch`. -/
theorem async_timeout_order_match :
    runProgram asyncTimeoutSnippet.program = .ok ["start", "end", "timeout"] ∧
    asyncTimeoutSnippet.expectedOutput = ["start", "end", "timeout"] ∧
    verify asyncTimeoutSnippet = .Match :=
  ⟨rfl, rfl, rfl⟩

/-- C7: the spread-merge-objects snippet logs the merged object with the
later spread's `b` overriding the earlier one, the captured output is the
single line with a 1, b 3, c 4, and `verify` returns `Match`. -/
theorem spread_merge_objects_match :
    runProgram spreadMergeSnippet.program = .ok ["\x7b a: 1, b: 3, c: 4 \x7d"] ∧
    verify spreadMergeSnippet = .Match :=
  ⟨rfl, rfl⟩

/-- C8: loading a definition set containing a snippet with neither a
non-empty `expectedOutput` nor `mayThrow` fails with `EmptySnippetError`
and produces no catalog at all, even though `register` itself accepts an
entry whose snippet list is non-empty but contains such a malformed
snippet. -/
theorem load_malformed_snippet_fails (defs : List FeatureEntry)
    (h : defs.any (fun e => e.snippets.any (fun s => !wellFormedSnippet s)) = true) :
    loadCatalog defs = .error .EmptySnippetError ∧
    emptyCatalog.register malformedEntry = .ok (Catalog.mk [malformedEntry]) := by
  exact ⟨by simp [loadCatalog, h], rfl⟩

/-- Witness for C8: the concrete definition set holding the malformed
entry fails to load with `EmptySnippetError`. -/
theorem load_malformed_snippet_fails_witness :
    loadCatalog [malformedEntry] = .error .EmptySnippetError ∧
    emptyCatalog.register malformedEntry = .ok (Catalog.mk [malformedEntry]) :=
  load_malformed_snippet_fails [malformedEntry] rfl

/-- C9: the result of verifying a snippet is independent of which snippets
were verified before it — appending a snippet to any verification
sequence contributes exactly `verify s` — the two hobbies snippets each
verify to `Match` in their own fresh scopes, while flat evaluation of
their concatenated sources collides on the repeated `const hobbies`
declaration and fails, as the raw src/destructuring.js would. -/
theorem snippet_noninterference :
    (∀ (pre : List Snippet) (s : Snippet),
        verifySeq (pre ++ [s]) = verifySeq pre ++ [verify s]) ∧
    verify hobbiesSnippetA = .Match ∧
    verify hobbiesSnippetB = .Match ∧
    runProgram (hobbiesSnippetA.program ++ hobbiesSnippetB.program) =
      .error .SyntaxFailure :=
  ⟨verifySeq_snoc, rfl, rfl, rfl⟩

/-- C10: an arrow-function property never observes the call receiver as
`this` — it always takes the lexical `this` of the enclosing scope — so
`person.greetArrow()` logs Hello, undefined, while the regular-function
and shorthand-method properties log Hello, John on the same object. -/
theorem arrow_this_lexical :
    (∀ lexical recv, resolveThis .arrow lexical recv = lexical) ∧
    callGreet .arrow = "Hello, undefined" ∧
    callGreet .regular = "Hello, John" ∧
    callGreet .methodShorthand = "Hello, John" :=
  ⟨fun _ _ => rfl, rfl, rfl, rfl⟩

end JsWorkshop
